import Mathlib

/-!
Verification of the macOS backend of the desktop-notifier library
(`src/desktop_notifier/macos.py`), as a shallow embedding in Lean.

The embedding follows the source closely:

* Python strings are `String` (or `List Char` where character-level reasoning
  is needed); Python dicts are association lists looked up front-to-back with
  insertion done by prepending (the most recent binding shadows older ones).
* The asynchronous OS responses (authorisation status, the error string of the
  completion handler of `addNotificationRequest`) are oracle parameters: the
  code blocks on a future resolved exactly once, so each call observes one
  such value.
* The calls made to the OS (`getNotificationSettings`,
  `getNotificationCategories`, `setNotificationCategories`,
  `addNotificationRequest`) are recorded in an explicit trace, and the set of
  notification categories registered with the OS is threaded as state.
* Caller-supplied callbacks are opaque: a callback is described by a numeric
  label and by whether invoking it raises; the delegate records invocations in
  an event trace and propagates exceptions as explicit error values.

The category identifier built at lines 276-278 of the source interpolates a
Python tuple of strings into an f-string, so the embedding includes the
CPython `repr` of a string (quote selection and character escaping) and of a
tuple of strings.  CPython decides which characters print literally with a
Unicode-category test; the embedding takes that test as an abstract parameter
`pr : Char → Bool`, and everything proved below holds for every choice of it.
-/

set_option maxHeartbeats 1000000

/-! ### CPython string repr: hexadecimal escapes -/

/-- Lower-case hexadecimal digit, as produced by CPython's `\xXX` escapes. -/
def hexDigit (n : Nat) : Char :=
  if n < 10 then Char.ofNat (48 + n) else Char.ofNat (87 + n)

/-- Value of a lower-case hexadecimal digit. -/
def hexVal (c : Char) : Option Nat :=
  if 48 ≤ c.toNat ∧ c.toNat ≤ 57 then some (c.toNat - 48)
  else if 97 ≤ c.toNat ∧ c.toNat ≤ 102 then some (c.toNat - 87)
  else none

/-- Big-endian, zero-padded hexadecimal rendering of `n` with `w` digits
(the `%02x`, `%04x`, `%08x` of CPython's repr escapes). -/
def hexChars : Nat → Nat → List Char
  | 0, _ => []
  | w + 1, n => hexDigit (n / 16 ^ w % 16) :: hexChars w n

/-- Read exactly `k` hexadecimal digits, accumulating their value. -/
def readHex : Nat → Nat → List Char → Option (Nat × List Char)
  | 0, acc, l => some (acc, l)
  | _ + 1, _, [] => none
  | k + 1, acc, c :: l =>
    match hexVal c with
    | none => none
    | some d => readHex k (acc * 16 + d) l

theorem hexVal_hexDigit : ∀ d : Nat, d < 16 → hexVal (hexDigit d) = some d := by decide

theorem readHex_hexChars (w : Nat) :
    ∀ (acc n : Nat) (rest : List Char),
      readHex w acc (hexChars w n ++ rest) = some (acc * 16 ^ w + n % 16 ^ w, rest) := by
  induction w with
  | zero =>
    intro acc n rest
    simp [hexChars, readHex, Nat.mod_one]
  | succ w ih =>
    intro acc n rest
    have hd : n / 16 ^ w % 16 < 16 := Nat.mod_lt _ (by norm_num)
    simp only [hexChars, List.cons_append, readHex, hexVal_hexDigit _ hd, List.append_eq]
    rw [ih]
    have hmod : n % 16 ^ (w + 1) = n % 16 ^ w + 16 ^ w * (n / 16 ^ w % 16) := by
      rw [pow_succ]
      exact Nat.mod_mul
    rw [hmod]
    ring_nf

theorem char_toNat_lt (c : Char) : c.toNat < 1114112 := by
  have hval : c.toNat = c.val.toNat := rfl
  rcases c.valid with h | h
  · rw [hval]; omega
  · rw [hval]; omega

/-! ### CPython string repr: escaping and quote selection -/

/-- How CPython's `repr` renders one character of a string delimited by the
quote character `q`.  `pr` is the (abstract) printability test: a printable
character not needing an escape is emitted literally, everything else is
escaped.  Mirrors `unicode_repr` in CPython. -/
def escChar (pr : Char → Bool) (q : Char) (c : Char) : List Char :=
  if c = q ∨ c = '\\' then ['\\', c]
  else if c = '\t' then ['\\', 't']
  else if c = '\n' then ['\\', 'n']
  else if c = '\r' then ['\\', 'r']
  else if c.toNat < 32 ∨ c.toNat = 127 then '\\' :: 'x' :: hexChars 2 c.toNat
  else if pr c then [c]
  else if c.toNat < 256 then '\\' :: 'x' :: hexChars 2 c.toNat
  else if c.toNat < 65536 then '\\' :: 'u' :: hexChars 4 c.toNat
  else '\\' :: 'U' :: hexChars 8 c.toNat

/-- CPython quote selection: a single quote unless the string contains a
single quote and no double quote. -/
def pyQuote (s : List Char) : Char :=
  if '\'' ∈ s ∧ ¬ '"' ∈ s then '"' else '\''

/-- CPython `repr` of a string: chosen quote, escaped body, closing quote. -/
def pyStrRepr (pr : Char → Bool) (s : List Char) : List Char :=
  pyQuote s :: (s.map (escChar pr (pyQuote s))).flatten ++ [pyQuote s]

theorem pyQuote_eq_or (s : List Char) : pyQuote s = '\'' ∨ pyQuote s = '"' := by
  unfold pyQuote
  split
  · exact Or.inr rfl
  · exact Or.inl rfl

/-! ### Decoder for the string repr (used only to show the repr injective) -/

/-- Read one escape sequence (the part after the backslash). -/
def parseEsc : List Char → Option (Char × List Char)
  | [] => none
  | d :: rest =>
    if d = 'x' then
      match readHex 2 0 rest with
      | none => none
      | some (v, r) => some (Char.ofNat v, r)
    else if d = 'u' then
      match readHex 4 0 rest with
      | none => none
      | some (v, r) => some (Char.ofNat v, r)
    else if d = 'U' then
      match readHex 8 0 rest with
      | none => none
      | some (v, r) => some (Char.ofNat v, r)
    else if d = 't' then some ('\t', rest)
    else if d = 'n' then some ('\n', rest)
    else if d = 'r' then some ('\r', rest)
    else some (d, rest)

/-- Read an escaped string body up to the closing quote `q`. -/
def parseBody (q : Char) : Nat → List Char → Option (List Char × List Char)
  | _, [] => none
  | 0, _ => none
  | fuel + 1, c :: rest =>
    if c = q then some ([], rest)
    else if c = '\\' then
      match parseEsc rest with
      | none => none
      | some (ch, rest2) =>
        match parseBody q fuel rest2 with
        | none => none
        | some (s, r) => some (ch :: s, r)
    else
      match parseBody q fuel rest with
      | none => none
      | some (s, r) => some (c :: s, r)

/-- Read a full string repr: the leading quote, then the body. -/
def parseStr (fuel : Nat) : List Char → Option (List Char × List Char)
  | [] => none
  | q :: rest => parseBody q fuel rest

theorem parseEsc_self (c : Char) (tail : List Char)
    (h : c = '\'' ∨ c = '"' ∨ c = '\\') : parseEsc (c :: tail) = some (c, tail) := by
  rcases h with rfl | rfl | rfl <;> rfl

theorem parseEsc_t (tail : List Char) : parseEsc ('t' :: tail) = some ('\t', tail) := rfl

theorem parseEsc_n (tail : List Char) : parseEsc ('n' :: tail) = some ('\n', tail) := rfl

theorem parseEsc_r (tail : List Char) : parseEsc ('r' :: tail) = some ('\r', tail) := rfl

theorem parseEsc_x (n : Nat) (hn : n < 256) (tail : List Char) :
    parseEsc ('x' :: (hexChars 2 n ++ tail)) = some (Char.ofNat n, tail) := by
  have hp : (16 : Nat) ^ 2 = 256 := by norm_num
  simp only [parseEsc, if_pos rfl]
  rw [readHex_hexChars]
  simp [Nat.mod_eq_of_lt hn]

theorem parseEsc_u (n : Nat) (hn : n < 65536) (tail : List Char) :
    parseEsc ('u' :: (hexChars 4 n ++ tail)) = some (Char.ofNat n, tail) := by
  have hp : (16 : Nat) ^ 4 = 65536 := by norm_num
  have hxu : ('u' : Char) ≠ 'x' := by decide
  simp only [parseEsc, if_neg hxu, if_pos rfl]
  rw [readHex_hexChars]
  simp [Nat.mod_eq_of_lt hn]

theorem parseEsc_U (n : Nat) (hn : n < 4294967296) (tail : List Char) :
    parseEsc ('U' :: (hexChars 8 n ++ tail)) = some (Char.ofNat n, tail) := by
  have hp : (16 : Nat) ^ 8 = 4294967296 := by norm_num
  have hx : ('U' : Char) ≠ 'x' := by decide
  have hu : ('U' : Char) ≠ 'u' := by decide
  simp only [parseEsc, if_neg hx, if_neg hu, if_pos rfl]
  rw [readHex_hexChars]
  simp [Nat.mod_eq_of_lt hn]

theorem parseBody_backslash (q : Char) (hbq : ('\\' : Char) ≠ q) (fuel : Nat)
    (es tail : List Char) (c : Char)
    (hesc : parseEsc (es ++ tail) = some (c, tail)) :
    parseBody q (fuel + 1) ('\\' :: (es ++ tail)) =
      Option.map (fun p => (c :: p.1, p.2)) (parseBody q fuel tail) := by
  simp only [parseBody, if_neg hbq, if_pos rfl, hesc]
  cases hpb : parseBody q fuel tail <;> simp

theorem parseBody_literal (q c : Char) (hcq : c ≠ q) (hcb : c ≠ '\\')
    (fuel : Nat) (tail : List Char) :
    parseBody q (fuel + 1) (c :: tail) =
      Option.map (fun p => (c :: p.1, p.2)) (parseBody q fuel tail) := by
  simp only [parseBody, if_neg hcq, if_neg hcb]
  cases hpb : parseBody q fuel tail <;> simp

/-- One escaped character is decoded back to itself, whatever the
printability test was. -/
theorem parseBody_escChar (pr : Char → Bool) (q c : Char) (hq : q = '\'' ∨ q = '"')
    (fuel : Nat) (tail : List Char) :
    parseBody q (fuel + 1) (escChar pr q c ++ tail) =
      Option.map (fun p => (c :: p.1, p.2)) (parseBody q fuel tail) := by
  have hbq : ('\\' : Char) ≠ q := by rcases hq with rfl | rfl <;> decide
  unfold escChar
  by_cases h1 : c = q ∨ c = '\\'
  · rw [if_pos h1]
    have hc : c = '\'' ∨ c = '"' ∨ c = '\\' := by
      rcases h1 with rfl | rfl
      · rcases hq with rfl | rfl
        · exact Or.inl rfl
        · exact Or.inr (Or.inl rfl)
      · exact Or.inr (Or.inr rfl)
    exact parseBody_backslash q hbq fuel [c] tail c (parseEsc_self c tail hc)
  · rw [if_neg h1]
    push_neg at h1
    obtain ⟨hcq, hcb⟩ := h1
    by_cases h2 : c = '\t'
    · rw [if_pos h2]
      subst h2
      exact parseBody_backslash q hbq fuel ['t'] tail '\t' (parseEsc_t tail)
    · rw [if_neg h2]
      by_cases h3 : c = '\n'
      · rw [if_pos h3]
        subst h3
        exact parseBody_backslash q hbq fuel ['n'] tail '\n' (parseEsc_n tail)
      · rw [if_neg h3]
        by_cases h4 : c = '\r'
        · rw [if_pos h4]
          subst h4
          exact parseBody_backslash q hbq fuel ['r'] tail '\r' (parseEsc_r tail)
        · rw [if_neg h4]
          by_cases h5 : c.toNat < 32 ∨ c.toNat = 127
          · rw [if_pos h5]
            have hlt : c.toNat < 256 := by rcases h5 with h | h <;> omega
            have := parseEsc_x c.toNat hlt tail
            rw [Char.ofNat_toNat] at this
            exact parseBody_backslash q hbq fuel ('x' :: hexChars 2 c.toNat) tail c
              (by rw [List.cons_append]; exact this)
          · rw [if_neg h5]
            by_cases h6 : pr c
            · rw [if_pos h6]
              exact parseBody_literal q c hcq hcb fuel tail
            · rw [if_neg h6]
              by_cases h7 : c.toNat < 256
              · rw [if_pos h7]
                have := parseEsc_x c.toNat h7 tail
                rw [Char.ofNat_toNat] at this
                exact parseBody_backslash q hbq fuel ('x' :: hexChars 2 c.toNat) tail c
                  (by rw [List.cons_append]; exact this)
              · rw [if_neg h7]
                by_cases h8 : c.toNat < 65536
                · rw [if_pos h8]
                  have := parseEsc_u c.toNat h8 tail
                  rw [Char.ofNat_toNat] at this
                  exact parseBody_backslash q hbq fuel ('u' :: hexChars 4 c.toNat) tail c
                    (by rw [List.cons_append]; exact this)
                · rw [if_neg h8]
                  have hU : c.toNat < 4294967296 := by
                    have := char_toNat_lt c
                    omega
                  have := parseEsc_U c.toNat hU tail
                  rw [Char.ofNat_toNat] at this
                  exact parseBody_backslash q hbq fuel ('U' :: hexChars 8 c.toNat) tail c
                    (by rw [List.cons_append]; exact this)

/-- The decoder recovers a whole escaped body followed by the closing quote. -/
theorem parseBody_flatten (pr : Char → Bool) (q : Char) (hq : q = '\'' ∨ q = '"') :
    ∀ (s : List Char) (fuel : Nat) (rest : List Char), s.length < fuel →
      parseBody q fuel ((s.map (escChar pr q)).flatten ++ (q :: rest)) = some (s, rest) := by
  intro s
  induction s with
  | nil =>
    intro fuel rest hf
    cases fuel with
    | zero => omega
    | succ m => simp [parseBody]
  | cons c t ih =>
    intro fuel rest hf
    cases fuel with
    | zero => simp at hf
    | succ m =>
      have hsplit : (((c :: t).map (escChar pr q)).flatten ++ (q :: rest))
          = escChar pr q c ++ ((t.map (escChar pr q)).flatten ++ (q :: rest)) := by
        simp [List.append_assoc]
      rw [hsplit, parseBody_escChar pr q c hq m _,
        ih m rest (by simp at hf; omega)]
      rfl

/-- The decoder recovers a string from its CPython repr, with the remaining
input untouched. -/
theorem parseStr_pyStrRepr (pr : Char → Bool) (s : List Char) (fuel : Nat)
    (rest : List Char) (hf : s.length < fuel) :
    parseStr fuel (pyStrRepr pr s ++ rest) = some (s, rest) := by
  have hsplit : pyStrRepr pr s ++ rest
      = pyQuote s :: ((s.map (escChar pr (pyQuote s))).flatten ++ (pyQuote s :: rest)) := by
    simp [pyStrRepr, List.append_assoc]
  rw [hsplit]
  show parseBody (pyQuote s) fuel _ = _
  exact parseBody_flatten pr (pyQuote s) (pyQuote_eq_or s) s fuel rest hf

theorem hexChars_length (w : Nat) : ∀ n : Nat, (hexChars w n).length = w := by
  induction w with
  | zero => intro n; rfl
  | succ w ih => intro n; simp [hexChars, ih]

theorem escChar_length_pos (pr : Char → Bool) (q c : Char) :
    0 < (escChar pr q c).length := by
  unfold escChar
  repeat' split
  all_goals simp [hexChars_length]

theorem flatten_map_escChar_length (pr : Char → Bool) (q : Char) (s : List Char) :
    s.length ≤ ((s.map (escChar pr q)).flatten).length := by
  induction s with
  | nil => simp
  | cons c t ih =>
    simp only [List.map_cons, List.flatten_cons, List.length_append, List.length_cons]
    have := escChar_length_pos pr q c
    omega

theorem pyStrRepr_length (pr : Char → Bool) (s : List Char) :
    s.length + 2 ≤ (pyStrRepr pr s).length := by
  unfold pyStrRepr
  simp only [List.length_append, List.length_cons, List.length_singleton]
  have := flatten_map_escChar_length pr (pyQuote s) s
  omega

/-! ### CPython repr of a tuple of strings -/

/-- The element reprs of a nonempty tuple, joined by `", "`
(CPython renders a tuple as the comma-join of the elements' reprs). -/
def tupleItems (pr : Char → Bool) : List (List Char) → List Char
  | [] => []
  | [a] => pyStrRepr pr a
  | a :: b :: t => pyStrRepr pr a ++ ',' :: ' ' :: tupleItems pr (b :: t)

/-- CPython `str` (= `repr`) of a tuple of strings: `()` when empty, a
trailing comma for a one-element tuple, `", "`-separated reprs otherwise. -/
def pyTupleRepr (pr : Char → Bool) : List (List Char) → List Char
  | [] => ['(', ')']
  | [a] => '(' :: (pyStrRepr pr a ++ [',', ')'])
  | a :: b :: t => '(' :: (tupleItems pr (a :: b :: t) ++ [')'])

/-- Read the elements of a tuple repr after the opening parenthesis. -/
def parseItems : Nat → List Char → Option (List (List Char) × List Char)
  | 0, _ => none
  | fuel + 1, input =>
    match parseStr input.length input with
    | none => none
    | some (a, rest) =>
      match rest with
      | [] => none
      | d :: r =>
        if d = ')' then some ([a], r)
        else if d = ',' then
          match r with
          | [] => none
          | e :: r2 =>
            if e = ')' then some ([a], r2)
            else if e = ' ' then
              match parseItems fuel r2 with
              | none => none
              | some (p, r3) => some (a :: p, r3)
            else none
        else none
    termination_by fuel _ => fuel

/-- Read a whole tuple repr. -/
def parseTuple (input : List Char) : Option (List (List Char) × List Char) :=
  match input with
  | [] => none
  | c :: body =>
    if c = '(' then
      match body with
      | [] => none
      | d :: r => if d = ')' then some ([], r) else parseItems body.length body
    else none

theorem parseItems_single (pr : Char → Bool) (a : List Char) (fuel : Nat)
    (rest : List Char) :
    parseItems (fuel + 1) (pyStrRepr pr a ++ ',' :: ')' :: rest) = some ([a], rest) := by
  have hlen : a.length < (pyStrRepr pr a ++ ',' :: ')' :: rest).length := by
    have := pyStrRepr_length pr a
    simp only [List.length_append, List.length_cons]
    omega
  have hps := parseStr_pyStrRepr pr a (pyStrRepr pr a ++ ',' :: ')' :: rest).length
    (',' :: ')' :: rest) hlen
  simp only [List.length_append, List.length_cons] at hps
  simp [parseItems, hps]

theorem parseItems_close (pr : Char → Bool) (a : List Char) (fuel : Nat)
    (rest : List Char) :
    parseItems (fuel + 1) (pyStrRepr pr a ++ ')' :: rest) = some ([a], rest) := by
  have hlen : a.length < (pyStrRepr pr a ++ ')' :: rest).length := by
    have := pyStrRepr_length pr a
    simp only [List.length_append, List.length_cons]
    omega
  have hps := parseStr_pyStrRepr pr a (pyStrRepr pr a ++ ')' :: rest).length
    (')' :: rest) hlen
  simp only [List.length_append, List.length_cons] at hps
  simp [parseItems, hps]

theorem parseItems_tupleItems (pr : Char → Bool) :
    ∀ (l : List (List Char)), l ≠ [] → ∀ (fuel : Nat), l.length ≤ fuel →
      ∀ (rest : List Char),
        parseItems fuel (tupleItems pr l ++ ')' :: rest) = some (l, rest) := by
  intro l
  induction l with
  | nil => intro h; exact absurd rfl h
  | cons a t ih =>
    intro _ fuel hfuel rest
    cases fuel with
    | zero => simp at hfuel
    | succ m =>
      cases t with
      | nil =>
        show parseItems (m + 1) (pyStrRepr pr a ++ ')' :: rest) = some ([a], rest)
        exact parseItems_close pr a m rest
      | cons b t2 =>
        have hsplit : tupleItems pr (a :: b :: t2) ++ ')' :: rest
            = pyStrRepr pr a ++ ',' :: ' ' :: (tupleItems pr (b :: t2) ++ ')' :: rest) := by
          simp [tupleItems, List.append_assoc]
        rw [hsplit]
        have hlen : a.length
            < (pyStrRepr pr a ++ ',' :: ' ' :: (tupleItems pr (b :: t2) ++ ')' :: rest)).length := by
          have := pyStrRepr_length pr a
          simp only [List.length_append, List.length_cons]
          omega
        have hps := parseStr_pyStrRepr pr a
          (pyStrRepr pr a ++ ',' :: ' ' :: (tupleItems pr (b :: t2) ++ ')' :: rest)).length
          (',' :: ' ' :: (tupleItems pr (b :: t2) ++ ')' :: rest)) hlen
        simp only [parseItems, hps]
        rw [ih (by simp) m (by simp at hfuel ⊢; omega) rest]
        simp

theorem tupleItems_length (pr : Char → Bool) :
    ∀ l : List (List Char), l.length ≤ (tupleItems pr l).length := by
  intro l
  induction l with
  | nil => simp [tupleItems]
  | cons a t ih =>
    cases t with
    | nil =>
      have := pyStrRepr_length pr a
      simp only [tupleItems, List.length_cons, List.length_nil]
      omega
    | cons b t2 =>
      have := pyStrRepr_length pr a
      simp only [tupleItems, List.length_append, List.length_cons] at ih ⊢
      omega

theorem pyStrRepr_head_quote (pr : Char → Bool) (a : List Char) :
    pyStrRepr pr a = pyQuote a :: ((a.map (escChar pr (pyQuote a))).flatten ++ [pyQuote a]) :=
  rfl

/-- The decoder recovers a tuple of strings from its CPython repr. -/
theorem parseTuple_pyTupleRepr (pr : Char → Bool) (l : List (List Char))
    (rest : List Char) :
    parseTuple (pyTupleRepr pr l ++ rest) = some (l, rest) := by
  have hq_ne : ∀ a : List Char, pyQuote a ≠ ')' := by
    intro a
    rcases pyQuote_eq_or a with h | h <;> rw [h] <;> decide
  cases l with
  | nil =>
    show parseTuple ('(' :: ')' :: rest) = some ([], rest)
    simp [parseTuple]
  | cons a t =>
    cases t with
    | nil =>
      have hsplit : pyTupleRepr pr [a] ++ rest
          = '(' :: (pyStrRepr pr a ++ ',' :: ')' :: rest) := by
        simp [pyTupleRepr, List.append_assoc]
      rw [hsplit]
      rw [pyStrRepr_head_quote]
      simp only [parseTuple, List.cons_append, if_pos rfl, if_neg (hq_ne a)]
      rw [← List.cons_append, ← pyStrRepr_head_quote]
      have hpos : ∃ m, (pyStrRepr pr a ++ ',' :: ')' :: rest).length = m + 1 := by
        have := pyStrRepr_length pr a
        simp only [List.length_append, List.length_cons]
        exact ⟨(pyStrRepr pr a).length + (rest.length + 1), by omega⟩
      obtain ⟨m, hm⟩ := hpos
      rw [hm]
      exact parseItems_single pr a m rest
    | cons b t2 =>
      have hsplit : pyTupleRepr pr (a :: b :: t2) ++ rest
          = '(' :: (tupleItems pr (a :: b :: t2) ++ ')' :: rest) := by
        simp [pyTupleRepr, List.append_assoc]
      rw [hsplit]
      have hhead : tupleItems pr (a :: b :: t2) ++ ')' :: rest
          = pyQuote a :: (((a.map (escChar pr (pyQuote a))).flatten ++ [pyQuote a])
              ++ (',' :: ' ' :: tupleItems pr (b :: t2) ++ ')' :: rest)) := by
        simp [tupleItems, pyStrRepr_head_quote, List.append_assoc]
      rw [hhead]
      simp only [parseTuple, if_pos rfl, if_neg (hq_ne a)]
      rw [← List.cons_append, ← pyStrRepr_head_quote, ← List.append_assoc]
      have hlen : (a :: b :: t2).length
          ≤ ((pyStrRepr pr a ++ ',' :: ' ' :: tupleItems pr (b :: t2)) ++ ')' :: rest).length := by
        have h1 := pyStrRepr_length pr a
        have h2 := tupleItems_length pr (b :: t2)
        simp only [List.length_append, List.length_cons] at h2 ⊢
        omega
      have harr : (pyStrRepr pr a ++ ',' :: ' ' :: tupleItems pr (b :: t2)) ++ ')' :: rest
          = tupleItems pr (a :: b :: t2) ++ ')' :: rest := by
        simp [tupleItems, List.append_assoc]
      rw [harr] at hlen ⊢
      exact parseItems_tupleItems pr (a :: b :: t2) (by simp) _
        (by simpa [tupleItems, List.append_assoc] using hlen) rest

/-- Two tuple reprs followed by arbitrary suffixes agree only when the tuples
and the suffixes agree: the repr is an unambiguous encoding. -/
theorem pyTupleRepr_append_inj (pr : Char → Bool) (l₁ l₂ : List (List Char))
    (r₁ r₂ : List Char) (h : pyTupleRepr pr l₁ ++ r₁ = pyTupleRepr pr l₂ ++ r₂) :
    l₁ = l₂ ∧ r₁ = r₂ := by
  have h1 := parseTuple_pyTupleRepr pr l₁ r₁
  have h2 := parseTuple_pyTupleRepr pr l₂ r₂
  rw [h, h2] at h1
  simp only [Option.some.injEq, Prod.mk.injEq] at h1
  exact ⟨h1.1.symm, h1.2.symm⟩

/-! ### Data model (macos.py lines 46-69 and the Notification record of base.py) -/

/-- Reserved action identifier for the default click (macos.py lines 46-48). -/
def UNNotificationDefaultActionIdentifier : String :=
  "com.apple.UNNotificationDefaultActionIdentifier"

/-- Reserved action identifier for a dismissal (macos.py lines 49-51). -/
def UNNotificationDismissActionIdentifier : String :=
  "com.apple.UNNotificationDismissActionIdentifier"

/-- Reserved identifier of the text-input reply action (macos.py line 69). -/
def ReplyActionIdentifier : String := "com.desktop-notifier.ReplyActionIdentifier"

/-- A caller-supplied callback, described by an observable label and by
whether invoking it raises an exception. -/
structure CB where
  cbId : Nat
  raises : Bool
deriving DecidableEq

/-- The caller's Notification record (the fields of `Notification` in base.py
that macos.py reads).  `buttons` is the button dict: an ordered mapping from
button title to callback. -/
structure Notification where
  identifier : String
  title : String
  message : String
  thread : String
  sound : Bool
  attachment : Option String
  buttons : List (String × CB)
  reply_field : Bool
  on_replied : Option CB
  on_clicked : Option CB
  on_dismissed : Option CB
deriving DecidableEq

/-- Python dict lookup (`d.get(k)`): the most recently inserted binding for a
key is found first. -/
def dictGet {α : Type} : List (String × α) → String → Option α
  | [], _ => none
  | p :: rest, k => if p.1 = k then some p.2 else dictGet rest k

/-- The fields of an interaction event (`UNNotificationResponse`) the
delegate reads: the platform identifier of the notification, the action
identifier, and the typed reply text. -/
structure Response where
  identifier : String
  actionIdentifier : String
  userText : String
deriving DecidableEq

/-- Observable effects of handling one interaction event: a callback
invocation (with its argument for the reply callback) or the call to the
OS completion handler. -/
inductive Ev where
  | cb (cbId : Nat) (arg : Option String)
  | completion
deriving DecidableEq

/-- Python exceptions the delegate's handler can raise. -/
inductive HandlerErr where
  | keyError (key : String)
  | callbackError (cbId : Nat)
deriving DecidableEq

/-- Invoke an optional callback guarded by Python truthiness
(`if cb: cb(...)`): no-op when absent, otherwise an invocation event
followed, for a raising callback, by the propagated exception. -/
def invoke (c : Option CB) (arg : Option String) : List Ev × Option HandlerErr :=
  match c with
  | none => ([], none)
  | some cb =>
    if cb.raises then ([Ev.cb cb.cbId arg], some (HandlerErr.callbackError cb.cbId))
    else ([Ev.cb cb.cbId arg], none)

/-! ### The interaction delegate (macos.py lines 72-110) -/

/-- Lines 86-108 of the delegate method: classify the action identifier by
exact string comparison, in source order, and invoke the matching callback
if present (falling back to the button dict). -/
def dispatchAction (py_notification : Notification) (r : Response) :
    List Ev × Option HandlerErr :=
  if r.actionIdentifier = UNNotificationDefaultActionIdentifier then
    invoke py_notification.on_clicked none
  else if r.actionIdentifier = UNNotificationDismissActionIdentifier then
    invoke py_notification.on_dismissed none
  else if r.actionIdentifier = ReplyActionIdentifier then
    invoke py_notification.on_replied (some r.userText)
  else
    invoke (dictGet py_notification.buttons r.actionIdentifier) none

/-- `NotificationCenterDelegate.userNotificationCenter_didReceiveNotificationResponse_withCompletionHandler_`
(lines 76-110): look the platform identifier up in `_notification_for_nid`
(a plain dict subscript, so a missing key raises `KeyError`), dispatch on the
action identifier, then call the OS completion handler.  The completion
handler is not reached when the lookup or an invoked callback raises.
Returns the event trace and the exception, if any, escaping the handler. -/
def didReceiveNotificationResponse (m : List (String × Notification))
    (r : Response) : List Ev × Option HandlerErr :=
  match dictGet m r.identifier with
  | none => ([], some (HandlerErr.keyError r.identifier))
  | some py_notification =>
    let d := dispatchAction py_notification r
    match d.2 with
    | some e => (d.1, some e)
    | none => (d.1 ++ [Ev.completion], none)

/-! ### Native objects and the OS call trace (macos.py lines 34-66, 223-241) -/

/-- A `UNNotificationAction` (or `UNTextInputNotificationAction`). -/
structure UNAction where
  identifier : String
  title : String
  isTextInput : Bool
deriving DecidableEq

/-- A `UNNotificationCategory`: its identifier and its actions. -/
structure UNCategory where
  identifier : String
  actions : List UNAction
deriving DecidableEq

/-- The `UNMutableNotificationContent` built by `_send`. -/
structure UNContent where
  title : String
  body : String
  categoryIdentifier : Option String
  threadIdentifier : String
  sound : Bool
  attachments : List String
deriving DecidableEq

/-- One call made to the OS notification center. -/
inductive OSCall where
  | getSettings
  | getCategories
  | setCategories (cats : List UNCategory)
  | addRequest (identifier : String) (content : UNContent)
deriving DecidableEq

/-- `UNAuthorizationStatus` values treated as authorised
(macos.py lines 64-66). -/
def UNAuthorizationStatusAuthorized : Nat := 2

def UNAuthorizationStatusProvisional : Nat := 3

def UNAuthorizationStatusEphemeral : Nat := 4

/-- `CocoaNotificationCenter.has_authorisation` (lines 171-196): blocks on
the settings query and compares the reported status against the three
authorised values. -/
def has_authorisation (authorizationStatus : Nat) : Bool :=
  (authorizationStatus == UNAuthorizationStatusAuthorized)
    || (authorizationStatus == UNAuthorizationStatusProvisional)
    || (authorizationStatus == UNAuthorizationStatusEphemeral)

/-! ### Category creation (macos.py lines 262-320) -/

/-- The category key computed at lines 276-278 when the notification has
buttons or a reply field:
`f"desktop-notifier: buttons={tuple(notification.buttons)}, reply_field={notification.reply_field}"`,
and `None` (line 274) otherwise.  The tuple of a dict iterates its keys, so
the interpolation renders the tuple of button titles. -/
def resolveCategoryKey (pr : Char → Bool) (button_titles : List String)
    (reply_field : Bool) : Option String :=
  if button_titles.isEmpty ∧ reply_field = false then none
  else some (String.mk
    ("desktop-notifier: buttons=".data
      ++ pyTupleRepr pr (button_titles.map String.data)
      ++ ", reply_field=".data
      ++ (if reply_field then "True".data else "False".data)))

/-- The actions registered for a new category (lines 289-306): the reply
text-input action first when requested, then one action per button with the
button title as both identifier and title. -/
def actionsFor (n : Notification) : List UNAction :=
  (if n.reply_field then [⟨ReplyActionIdentifier, "Reply", true⟩] else [])
    ++ n.buttons.map (fun b => ⟨b.1, b.1, false⟩)

/-- Result of `_create_category_for_notification`: the returned category
identifier, the categories now registered with the OS, and the OS calls
made. -/
structure CatResult where
  category_id : Option String
  cats : List UNCategory
  calls : List OSCall
deriving DecidableEq

/-- `CocoaNotificationCenter._create_category_for_notification`
(lines 262-320).  `cats` is the category set currently registered with the
OS (the source re-queries it on every call rather than caching).  When the
derived key is not among the registered identifiers, the new category is
registered as the old set plus the new one (`setByAddingObject`). -/
def _create_category_for_notification (pr : Char → Bool) (cats : List UNCategory)
    (n : Notification) : CatResult :=
  match resolveCategoryKey pr (n.buttons.map (fun b => b.1)) n.reply_field with
  | none => ⟨none, cats, []⟩
  | some category_id =>
    if (cats.map (fun c => c.identifier)).contains category_id then
      ⟨some category_id, cats, [OSCall.getCategories]⟩
    else
      ⟨some category_id, cats ++ [⟨category_id, actionsFor n⟩],
        [OSCall.getCategories,
          OSCall.setCategories (cats ++ [⟨category_id, actionsFor n⟩])]⟩

/-! ### Sending (macos.py lines 198-260) -/

/-- Python exceptions `_send` can raise: `RuntimeError("Not authorised")`
(line 211) and `RuntimeError(error)` for a non-empty OS error description
(line 258). -/
inductive SendErr where
  | notAuthorised
  | osError (msg : String)
deriving DecidableEq

deriving instance DecidableEq for Except

/-- Result of `_send`: the returned platform identifier or the raised
exception, the categories registered with the OS afterwards, and the OS
calls made. -/
structure SendResult where
  result : Except SendErr String
  cats : List UNCategory
  calls : List OSCall
deriving DecidableEq

/-- The `UNMutableNotificationContent` built at lines 223-237. -/
def contentFor (n : Notification) (category_id : Option String) : UNContent :=
  { title := n.title
    body := n.message
    categoryIdentifier := category_id
    threadIdentifier := n.thread
    sound := n.sound
    attachments := match n.attachment with | some p => [p] | none => [] }

/-- The platform identifier chosen at lines 213-216: the identifier of the
notification being replaced, else a fresh value from the uuid4 supply. -/
def platform_nid_used (uuids : Nat → String) (uuidCount : Nat)
    (notification_to_replace : Option Notification) : String :=
  match notification_to_replace with
  | some r => r.identifier
  | none => uuids uuidCount

/-- `CocoaNotificationCenter._send` (lines 198-260).  Oracle parameters:
`uuids` is the stream of values `uuid.uuid4()` produces (indexed by how many
have been drawn so far, returned alongside the result), `status` is the
authorisation status the settings query reports, and `osErr` is the error
description with which the OS resolves the completion handler of
`addNotificationRequest` (empty on success). -/
def _send (pr : Char → Bool) (uuids : Nat → String) (status : Nat) (osErr : String)
    (cats : List UNCategory) (uuidCount : Nat)
    (n : Notification) (replace : Option Notification) : SendResult × Nat :=
  if has_authorisation status = false then
    (⟨Except.error SendErr.notAuthorised, cats, [OSCall.getSettings]⟩, uuidCount)
  else
    let platform_nid := platform_nid_used uuids uuidCount replace
    let newCount := match replace with | some _ => uuidCount | none => uuidCount + 1
    let cr := _create_category_for_notification pr cats n
    let content := contentFor n cr.category_id
    let calls := OSCall.getSettings :: cr.calls ++ [OSCall.addRequest platform_nid content]
    if osErr = "" then
      (⟨Except.ok platform_nid, cr.cats, calls⟩, newCount)
    else
      (⟨Except.error (SendErr.osError osErr), cr.cats, calls⟩, newCount)

/-! ### Construction and the send wrapper -/

/-- `CocoaNotificationCenter._clear_notification_categories` (lines 339-342):
replaces whatever category set is registered with an empty set. -/
def _clear_notification_categories (_cats : List UNCategory) :
    List UNCategory × List OSCall :=
  ([], [OSCall.setCategories []])

/-- `CocoaNotificationCenter.__init__` (lines 128-140): registers the
delegate, then clears all notification categories. -/
def cocoaInit (cats : List UNCategory) : List UNCategory × List OSCall :=
  _clear_notification_categories cats

/-- The mutable state of one `CocoaNotificationCenter`: the category set
registered with the OS, the `_notification_for_nid` lookup mapping, and how
many uuid4 values have been drawn. -/
structure NCState where
  cats : List UNCategory
  mapping : List (String × Notification)
  uuidCount : Nat
deriving DecidableEq

/-- Modelled from the spec: `DesktopNotifierBase.send` lives in
`src/desktop_notifier/base.py`, which is not among the sources; per the
spec it calls the platform `_send` and, on success, records the returned
platform identifier in the identifier-to-Notification lookup mapping
("this identifier is recorded in the lookup mapping for later interaction
routing"), which is never removed from automatically. -/
def send (pr : Char → Bool) (uuids : Nat → String) (status : Nat) (osErr : String)
    (st : NCState) (n : Notification) (replace : Option Notification) :
    Except SendErr String × NCState × List OSCall :=
  match (_send pr uuids status osErr st.cats st.uuidCount n replace).1.result with
  | Except.error e =>
    (Except.error e,
      ⟨(_send pr uuids status osErr st.cats st.uuidCount n replace).1.cats, st.mapping,
        (_send pr uuids status osErr st.cats st.uuidCount n replace).2⟩,
      (_send pr uuids status osErr st.cats st.uuidCount n replace).1.calls)
  | Except.ok nid =>
    (Except.ok nid,
      ⟨(_send pr uuids status osErr st.cats st.uuidCount n replace).1.cats,
        (nid, n) :: st.mapping,
        (_send pr uuids status osErr st.cats st.uuidCount n replace).2⟩,
      (_send pr uuids status osErr st.cats st.uuidCount n replace).1.calls)

/-! ### Claim C7 -/

theorem string_data_injective : Function.Injective String.data := by
  intro a b hab
  exact String.ext hab

/-- C7: the category-key derivation of `_create_category_for_notification`
(lines 273-278) is a deterministic function of the ordered tuple of button
titles and the reply-field flag, and it is injective: two notifications
resolve to the same category key exactly when their button-title sequences
and reply-field flags agree.  Holds for every printability test `pr` CPython
might use in the f-string interpolation. -/
theorem C7_category_key_deterministic_and_injective (pr : Char → Bool)
    (t₁ t₂ : List String) (r₁ r₂ : Bool) :
    resolveCategoryKey pr t₁ r₁ = resolveCategoryKey pr t₂ r₂ ↔ (t₁ = t₂ ∧ r₁ = r₂) := by
  constructor
  · intro h
    unfold resolveCategoryKey at h
    by_cases h₁ : t₁.isEmpty ∧ r₁ = false <;> by_cases h₂ : t₂.isEmpty ∧ r₂ = false
    · obtain ⟨e₁, f₁⟩ := h₁
      obtain ⟨e₂, f₂⟩ := h₂
      rw [List.isEmpty_iff] at e₁ e₂
      exact ⟨e₁.trans e₂.symm, f₁.trans f₂.symm⟩
    · rw [if_pos h₁, if_neg h₂] at h
      exact absurd h (by simp)
    · rw [if_neg h₁, if_pos h₂] at h
      exact absurd h (by simp)
    · rw [if_neg h₁, if_neg h₂] at h
      simp only [Option.some.injEq] at h
      have hd := congrArg String.data h
      simp only [List.append_assoc] at hd
      have h' := List.append_cancel_left hd
      obtain ⟨htup, hsuf⟩ := pyTupleRepr_append_inj pr _ _ _ _ h'
      have ht : t₁ = t₂ :=
        List.map_injective_iff.mpr string_data_injective htup
      have hr : r₁ = r₂ := by
        have hsuf' := List.append_cancel_left hsuf
        cases r₁ <;> cases r₂
        · rfl
        · exact absurd hsuf' (by decide)
        · exact absurd hsuf' (by decide)
        · rfl
      exact ⟨ht, hr⟩
  · rintro ⟨rfl, rfl⟩
    rfl

/-! ### Claims C1 and C2 -/

/-- An interaction event whose platform identifier is not in the lookup
mapping (the mapping in the scenario is empty). -/
def unknownResponse : Response :=
  ⟨"missing-id", UNNotificationDefaultActionIdentifier, ""⟩

/-- C1 counterexample: on an event with an unrecognised platform identifier
the delegate's handler does raise an error — the dict subscript at line 82
raises `KeyError` — contradicting the claim that no error is raised. -/
theorem C1_counterexample :
    (didReceiveNotificationResponse [] unknownResponse).2
      = some (HandlerErr.keyError "missing-id") := rfl

/-- C1 (amended): for every interaction event whose OS-provided platform
identifier is not a key of the lookup mapping, the handler invokes no
callback and does not call the completion handler, but it raises a
`KeyError` rather than returning silently. -/
theorem C1_unknown_identifier_no_callback_keyerror
    (m : List (String × Notification)) (r : Response)
    (h : dictGet m r.identifier = none) :
    didReceiveNotificationResponse m r
      = ([], some (HandlerErr.keyError r.identifier)) := by
  unfold didReceiveNotificationResponse
  rw [h]

theorem C1_witness :
    didReceiveNotificationResponse [] unknownResponse
      = ([], some (HandlerErr.keyError "missing-id")) :=
  C1_unknown_identifier_no_callback_keyerror [] unknownResponse rfl

/-- A notification whose click callback raises. -/
def raisingNotification : Notification :=
  { identifier := "nid-1", title := "t", message := "m", thread := "",
    sound := false, attachment := none, buttons := [], reply_field := false,
    on_replied := none, on_clicked := some ⟨7, true⟩, on_dismissed := none }

/-- The default-click interaction event for `raisingNotification`. -/
def clickResponse : Response :=
  ⟨"nid-1", UNNotificationDefaultActionIdentifier, ""⟩

/-- C2 counterexample: when the invoked callback raises, the OS completion
handler is not invoked at all (zero times, not exactly once): line 110 runs
only if lines 80-108 did not raise. -/
theorem C2_counterexample :
    (didReceiveNotificationResponse [("nid-1", raisingNotification)]
        clickResponse).1.count Ev.completion ≠ 1 := by
  have h : didReceiveNotificationResponse [("nid-1", raisingNotification)] clickResponse
      = ([Ev.cb 7 none], some (HandlerErr.callbackError 7)) := rfl
  rw [h]
  decide

theorem invoke_count_completion (c : Option CB) (arg : Option String) :
    (invoke c arg).1.count Ev.completion = 0 := by
  cases c with
  | none => rfl
  | some cb => cases hcb : cb.raises <;> simp [invoke, hcb]

theorem dispatchAction_count_completion (n : Notification) (r : Response) :
    (dispatchAction n r).1.count Ev.completion = 0 := by
  unfold dispatchAction
  split_ifs <;> exact invoke_count_completion _ _

/-- C2 (amended): the OS completion handler is invoked exactly once per event
when the identifier lookup succeeds and no invoked callback raises, and zero
times when the lookup or an invoked callback raises (the handler then escapes
with the exception instead). -/
theorem didReceive_eq_of_found (m : List (String × Notification)) (r : Response)
    (n : Notification) (h : dictGet m r.identifier = some n) :
    didReceiveNotificationResponse m r
      = (match (dispatchAction n r).2 with
         | some e => ((dispatchAction n r).1, some e)
         | none => ((dispatchAction n r).1 ++ [Ev.completion], none)) := by
  unfold didReceiveNotificationResponse
  rw [h]

theorem C2_completion_exactly_once_unless_exception
    (m : List (String × Notification)) (r : Response) :
    (didReceiveNotificationResponse m r).1.count Ev.completion
      = if (didReceiveNotificationResponse m r).2 = none then 1 else 0 := by
  cases hdg : dictGet m r.identifier with
  | none =>
    have h : didReceiveNotificationResponse m r
        = ([], some (HandlerErr.keyError r.identifier)) := by
      unfold didReceiveNotificationResponse
      rw [hdg]
    rw [h]
    simp
  | some n =>
    have h0 := dispatchAction_count_completion n r
    rw [didReceive_eq_of_found m r n hdg]
    rcases hdd : dispatchAction n r with ⟨evs, err⟩
    rw [hdd] at h0
    simp only at h0
    cases err with
    | some e => simp [h0]
    | none => simp [List.count_append, h0]

/-! ### Claim C8 -/

theorem handler_events_of_dispatch (m : List (String × Notification)) (r : Response)
    (n : Notification) (c : Option CB) (arg : Option String)
    (hm : dictGet m r.identifier = some n)
    (hd : dispatchAction n r = invoke c arg) :
    (∀ e ∈ (didReceiveNotificationResponse m r).1,
        e = Ev.completion ∨ ∃ cb, c = some cb ∧ e = Ev.cb cb.cbId arg) ∧
    (∀ cb, c = some cb → Ev.cb cb.cbId arg ∈ (didReceiveNotificationResponse m r).1) := by
  rw [didReceive_eq_of_found m r n hm, hd]
  cases c with
  | none =>
    constructor
    · intro e he
      simp [invoke] at he
      simp [he]
    · intro cb hcb
      exact absurd hcb (by simp)
  | some cb =>
    cases hr : cb.raises with
    | true =>
      constructor
      · intro e he
        simp [invoke, hr] at he
        exact Or.inr ⟨cb, rfl, he⟩
      · intro cb' hcb'
        obtain rfl : cb = cb' := by injection hcb'
        simp [invoke, hr]
    | false =>
      constructor
      · intro e he
        simp [invoke, hr] at he
        rcases he with he | he
        · exact Or.inr ⟨cb, rfl, he⟩
        · exact Or.inl he
      · intro cb' hcb'
        obtain rfl : cb = cb' := by injection hcb'
        simp [invoke, hr]

/-- C8: the delegate classifies the action identifier by exact string
equality in the precedence order default-click, dismiss, reserved reply,
button-title lookup (lines 86-108).  Whenever the action identifier equals
one of the three reserved identifiers, only the corresponding reserved
callback can be invoked — in particular, a default-click event invokes
`on_clicked` (when present) and never a button callback, even if a button
title equals the reserved default-click identifier; and only when the action
identifier is none of the reserved identifiers is it treated as a button
title. -/
theorem C8_reserved_identifiers_take_precedence
    (m : List (String × Notification)) (r : Response) (n : Notification)
    (hm : dictGet m r.identifier = some n) :
    (r.actionIdentifier = UNNotificationDefaultActionIdentifier →
      (∀ e ∈ (didReceiveNotificationResponse m r).1,
          e = Ev.completion ∨ ∃ cb, n.on_clicked = some cb ∧ e = Ev.cb cb.cbId none) ∧
      (∀ cb, n.on_clicked = some cb →
          Ev.cb cb.cbId none ∈ (didReceiveNotificationResponse m r).1)) ∧
    (r.actionIdentifier = UNNotificationDismissActionIdentifier →
      (∀ e ∈ (didReceiveNotificationResponse m r).1,
          e = Ev.completion ∨ ∃ cb, n.on_dismissed = some cb ∧ e = Ev.cb cb.cbId none) ∧
      (∀ cb, n.on_dismissed = some cb →
          Ev.cb cb.cbId none ∈ (didReceiveNotificationResponse m r).1)) ∧
    (r.actionIdentifier = ReplyActionIdentifier →
      (∀ e ∈ (didReceiveNotificationResponse m r).1,
          e = Ev.completion ∨
            ∃ cb, n.on_replied = some cb ∧ e = Ev.cb cb.cbId (some r.userText)) ∧
      (∀ cb, n.on_replied = some cb →
          Ev.cb cb.cbId (some r.userText) ∈ (didReceiveNotificationResponse m r).1)) ∧
    (r.actionIdentifier ≠ UNNotificationDefaultActionIdentifier →
      r.actionIdentifier ≠ UNNotificationDismissActionIdentifier →
      r.actionIdentifier ≠ ReplyActionIdentifier →
      (∀ e ∈ (didReceiveNotificationResponse m r).1,
          e = Ev.completion ∨ ∃ cb, dictGet n.buttons r.actionIdentifier = some cb ∧
            e = Ev.cb cb.cbId none) ∧
      (∀ cb, dictGet n.buttons r.actionIdentifier = some cb →
          Ev.cb cb.cbId none ∈ (didReceiveNotificationResponse m r).1)) := by
  refine ⟨?_, ?_, ?_, ?_⟩
  · intro ha
    exact handler_events_of_dispatch m r n n.on_clicked none hm
      (by unfold dispatchAction; rw [if_pos ha])
  · intro ha
    have hne : r.actionIdentifier ≠ UNNotificationDefaultActionIdentifier := by
      rw [ha]; decide
    exact handler_events_of_dispatch m r n n.on_dismissed none hm
      (by unfold dispatchAction; rw [if_neg hne, if_pos ha])
  · intro ha
    have hne1 : r.actionIdentifier ≠ UNNotificationDefaultActionIdentifier := by
      rw [ha]; decide
    have hne2 : r.actionIdentifier ≠ UNNotificationDismissActionIdentifier := by
      rw [ha]; decide
    exact handler_events_of_dispatch m r n n.on_replied (some r.userText) hm
      (by unfold dispatchAction; rw [if_neg hne1, if_neg hne2, if_pos ha])
  · intro h1 h2 h3
    exact handler_events_of_dispatch m r n (dictGet n.buttons r.actionIdentifier) none hm
      (by unfold dispatchAction; rw [if_neg h1, if_neg h2, if_neg h3])

/-! ### Claims about sending -/

/-- C8 witness scenario: a notification whose button title collides with the
reserved default-click identifier. -/
def collidingNotification : Notification :=
  { identifier := "nid-2", title := "t", message := "m", thread := "",
    sound := false, attachment := none,
    buttons := [(UNNotificationDefaultActionIdentifier, ⟨2, false⟩)],
    reply_field := false, on_replied := none, on_clicked := some ⟨1, false⟩,
    on_dismissed := none }

/-- Default-click event for `collidingNotification`. -/
def collidingClickResponse : Response :=
  ⟨"nid-2", UNNotificationDefaultActionIdentifier, ""⟩

theorem C8_witness :
    (∀ e ∈ (didReceiveNotificationResponse [("nid-2", collidingNotification)]
        collidingClickResponse).1,
      e = Ev.completion ∨ ∃ cb, collidingNotification.on_clicked = some cb ∧
        e = Ev.cb cb.cbId none) ∧
    (∀ cb, collidingNotification.on_clicked = some cb →
      Ev.cb cb.cbId none ∈ (didReceiveNotificationResponse
        [("nid-2", collidingNotification)] collidingClickResponse).1) :=
  (C8_reserved_identifiers_take_precedence [("nid-2", collidingNotification)]
    collidingClickResponse collidingNotification rfl).1 rfl

/-- What `_send` does once authorised, as a single closed form. -/
theorem _send_authorized_eq (pr : Char → Bool) (uuids : Nat → String) (status : Nat)
    (osErr : String) (cats : List UNCategory) (count : Nat)
    (n : Notification) (replace : Option Notification)
    (h : has_authorisation status = true) :
    _send pr uuids status osErr cats count n replace
      = (⟨if osErr = "" then Except.ok (platform_nid_used uuids count replace)
            else Except.error (SendErr.osError osErr),
          (_create_category_for_notification pr cats n).cats,
          OSCall.getSettings :: (_create_category_for_notification pr cats n).calls
            ++ [OSCall.addRequest (platform_nid_used uuids count replace)
                  (contentFor n (_create_category_for_notification pr cats n).category_id)]⟩,
        match replace with | some _ => count | none => count + 1) := by
  simp only [_send, h]
  by_cases he : osErr = "" <;> simp [he]

/-- C4: calling send while authorisation is not granted raises
`RuntimeError("Not authorised")` (line 211) before any category query,
category registration or notification-request submission — the only OS call
made is the settings query of `has_authorisation` — and it leaves the lookup
mapping, the registered categories and the uuid counter unchanged. -/
theorem C4_send_unauthorised_raises_before_os_calls
    (pr : Char → Bool) (uuids : Nat → String) (status : Nat) (osErr : String)
    (st : NCState) (n : Notification) (replace : Option Notification)
    (h : has_authorisation status = false) :
    send pr uuids status osErr st n replace
      = (Except.error SendErr.notAuthorised, st, [OSCall.getSettings]) := by
  unfold send _send
  rw [if_pos h]

/-- A notification with one button, used in concrete witness runs. -/
def plainNotification : Notification :=
  { identifier := "nid-3", title := "Hello", message := "World", thread := "",
    sound := false, attachment := none, buttons := [("OK", ⟨3, false⟩)],
    reply_field := false, on_replied := none, on_clicked := none,
    on_dismissed := none }

theorem C4_witness :
    send (fun _ => true) (fun _ => "u") 0 "" ⟨[], [], 0⟩ plainNotification none
      = (Except.error SendErr.notAuthorised, ⟨[], [], 0⟩, [OSCall.getSettings]) :=
  C4_send_unauthorised_raises_before_os_calls (fun _ => true) (fun _ => "u") 0 ""
    ⟨[], [], 0⟩ plainNotification none rfl

/-- C5: once authorised, `_send` raises exactly when the OS resolves the
completion handler of `addNotificationRequest` with a non-empty error string
(lines 255-258), and on an empty error string it returns precisely the
platform identifier that was submitted with the notification request
(lines 239-241, 260). -/
theorem C5_authorized_send_error_iff_nonempty
    (pr : Char → Bool) (uuids : Nat → String) (status : Nat) (osErr : String)
    (cats : List UNCategory) (count : Nat)
    (n : Notification) (replace : Option Notification)
    (h : has_authorisation status = true) :
    ((∃ e, (_send pr uuids status osErr cats count n replace).1.result
        = Except.error e) ↔ osErr ≠ "") ∧
    (osErr = "" →
      (_send pr uuids status osErr cats count n replace).1.result
          = Except.ok (platform_nid_used uuids count replace) ∧
      OSCall.addRequest (platform_nid_used uuids count replace)
          (contentFor n (_create_category_for_notification pr cats n).category_id)
        ∈ (_send pr uuids status osErr cats count n replace).1.calls) := by
  rw [_send_authorized_eq pr uuids status osErr cats count n replace h]
  by_cases he : osErr = ""
  · simp [he]
  · simp [he]

theorem C5_witness :
    ((∃ e, (_send (fun _ => true) (fun _ => "u") 2 "" [] 0 plainNotification
        none).1.result = Except.error e) ↔ ("" : String) ≠ "") ∧
    (("" : String) = "" →
      (_send (fun _ => true) (fun _ => "u") 2 "" [] 0 plainNotification none).1.result
          = Except.ok (platform_nid_used (fun _ => "u") 0 none) ∧
      OSCall.addRequest (platform_nid_used (fun _ => "u") 0 none)
          (contentFor plainNotification
            (_create_category_for_notification (fun _ => true) [] plainNotification).category_id)
        ∈ (_send (fun _ => true) (fun _ => "u") 2 "" [] 0 plainNotification none).1.calls) :=
  C5_authorized_send_error_iff_nonempty (fun _ => true) (fun _ => "u") 2 "" [] 0
    plainNotification none rfl

theorem create_calls_no_addRequest (pr : Char → Bool) (cats : List UNCategory)
    (n : Notification) (i : String) (c : UNContent) :
    OSCall.addRequest i c ∉ (_create_category_for_notification pr cats n).calls := by
  unfold _create_category_for_notification
  split
  · simp
  · split <;> simp

theorem _send_addRequest_identifier (pr : Char → Bool) (uuids : Nat → String)
    (status : Nat) (osErr : String) (cats : List UNCategory) (count : Nat)
    (n : Notification) (replace : Option Notification) (i : String) (c : UNContent)
    (h : has_authorisation status = true)
    (hmem : OSCall.addRequest i c
      ∈ (_send pr uuids status osErr cats count n replace).1.calls) :
    i = platform_nid_used uuids count replace := by
  rw [_send_authorized_eq pr uuids status osErr cats count n replace h] at hmem
  rcases List.mem_cons.mp hmem with hm | hm
  · exact absurd hm (by simp)
  · rcases List.mem_append.mp hm with hm | hm
    · exact absurd hm (create_calls_no_addRequest pr cats n i c)
    · simp only [List.mem_singleton, OSCall.addRequest.injEq] at hm
      exact hm.1

theorem _send_authorized_count (pr : Char → Bool) (uuids : Nat → String)
    (status : Nat) (osErr : String) (cats : List UNCategory) (count : Nat)
    (n : Notification) (h : has_authorisation status = true) :
    (_send pr uuids status osErr cats count n none).2 = count + 1 := by
  rw [_send_authorized_eq pr uuids status osErr cats count n none h]

/-- C6: a send that replaces a previously sent notification uses — and, on
success, returns — that notification's existing identifier (line 214); a send
without `replacing` draws a fresh value from the uuid4 supply and advances
it, so two sends without `replacing` never submit the same identifier
(the supply is modelled as an injective stream). -/
theorem C6_replacing_reuses_identifier_fresh_ids_distinct
    (pr : Char → Bool) (uuids : Nat → String) (hinj : Function.Injective uuids)
    (status₁ status₂ : Nat) (osErr₁ osErr₂ : String)
    (cats₁ cats₂ : List UNCategory) (count : Nat) (n₁ n₂ rn : Notification)
    (h₁ : has_authorisation status₁ = true) (h₂ : has_authorisation status₂ = true) :
    (∀ v, (_send pr uuids status₁ osErr₁ cats₁ count n₁ (some rn)).1.result
        = Except.ok v → v = rn.identifier) ∧
    (∀ i c, OSCall.addRequest i c
        ∈ (_send pr uuids status₁ osErr₁ cats₁ count n₁ (some rn)).1.calls →
        i = rn.identifier) ∧
    (∀ i₁ c₁ i₂ c₂,
      OSCall.addRequest i₁ c₁
          ∈ (_send pr uuids status₁ osErr₁ cats₁ count n₁ none).1.calls →
      OSCall.addRequest i₂ c₂
          ∈ (_send pr uuids status₂ osErr₂ cats₂
              ((_send pr uuids status₁ osErr₁ cats₁ count n₁ none).2) n₂ none).1.calls →
      i₁ ≠ i₂) := by
  refine ⟨?_, ?_, ?_⟩
  · intro v hv
    rw [_send_authorized_eq pr uuids status₁ osErr₁ cats₁ count n₁ (some rn) h₁] at hv
    by_cases he : osErr₁ = ""
    · rw [if_pos he] at hv
      exact (Except.ok.inj hv).symm
    · rw [if_neg he] at hv
      exact absurd hv (by simp)
  · intro i c hmem
    exact _send_addRequest_identifier pr uuids status₁ osErr₁ cats₁ count n₁ (some rn)
      i c h₁ hmem
  · intro i₁ c₁ i₂ c₂ hm₁ hm₂
    have e₁ := _send_addRequest_identifier pr uuids status₁ osErr₁ cats₁ count n₁ none
      i₁ c₁ h₁ hm₁
    have e₂ := _send_addRequest_identifier pr uuids status₂ osErr₂ cats₂
      ((_send pr uuids status₁ osErr₁ cats₁ count n₁ none).2) n₂ none i₂ c₂ h₂ hm₂
    rw [_send_authorized_count pr uuids status₁ osErr₁ cats₁ count n₁ h₁] at e₂
    rw [e₁, e₂]
    intro hcontra
    have := hinj hcontra
    omega

/-- A concrete uuid4 supply for witness runs: pairwise-distinct strings. -/
def uuidSupply (k : Nat) : String := String.mk (List.replicate k 'u')

theorem uuidSupply_injective : Function.Injective uuidSupply := by
  intro a b hab
  have hlen := congrArg (fun s => s.data.length) hab
  simpa [uuidSupply] using hlen

theorem C6_witness :
    (∀ v, (_send (fun _ => true) uuidSupply 2 "" [] 0 plainNotification
        (some plainNotification)).1.result = Except.ok v →
        v = plainNotification.identifier) ∧
    (∀ i c, OSCall.addRequest i c
        ∈ (_send (fun _ => true) uuidSupply 2 "" [] 0 plainNotification
            (some plainNotification)).1.calls → i = plainNotification.identifier) ∧
    (∀ i₁ c₁ i₂ c₂,
      OSCall.addRequest i₁ c₁
          ∈ (_send (fun _ => true) uuidSupply 2 "" [] 0 plainNotification
              none).1.calls →
      OSCall.addRequest i₂ c₂
          ∈ (_send (fun _ => true) uuidSupply 2 "" []
              ((_send (fun _ => true) uuidSupply 2 "" [] 0 plainNotification none).2)
              plainNotification none).1.calls →
      i₁ ≠ i₂) :=
  C6_replacing_reuses_identifier_fresh_ids_distinct (fun _ => true) uuidSupply
    uuidSupply_injective 2 2 "" "" [] [] 0 plainNotification plainNotification
    plainNotification rfl rfl

/-! ### Claim C9 -/

/-- C9: when send returns without raising, the returned platform identifier
is a key of the `_notification_for_nid` lookup mapping, mapped to the sent
Notification, immediately after the call. -/
theorem C9_returned_identifier_in_mapping
    (pr : Char → Bool) (uuids : Nat → String) (status : Nat) (osErr : String)
    (st : NCState) (n : Notification) (replace : Option Notification)
    (nid : String) (st' : NCState) (calls : List OSCall)
    (h : send pr uuids status osErr st n replace = (Except.ok nid, st', calls)) :
    dictGet st'.mapping nid = some n := by
  unfold send at h
  cases hr : (_send pr uuids status osErr st.cats st.uuidCount n replace).1.result with
  | error e =>
    rw [hr] at h
    simp at h
  | ok v =>
    rw [hr] at h
    simp only [Prod.mk.injEq, Except.ok.injEq] at h
    obtain ⟨hv, hst, _⟩ := h
    rw [← hst]
    simp [dictGet, hv]

theorem C9_witness :
    dictGet ((send (fun _ => true) uuidSupply 2 "" ⟨[], [], 1⟩ plainNotification
        none).2.1).mapping "u" = some plainNotification :=
  C9_returned_identifier_in_mapping (fun _ => true) uuidSupply 2 "" ⟨[], [], 1⟩
    plainNotification none "u"
    ((send (fun _ => true) uuidSupply 2 "" ⟨[], [], 1⟩ plainNotification none).2.1)
    ((send (fun _ => true) uuidSupply 2 "" ⟨[], [], 1⟩ plainNotification none).2.2)
    rfl

/-! ### Claim C10 -/

/-- C10: for a notification with no buttons and no reply field, category
resolution returns `None` before the category query (lines 273-274), so no
`getNotificationCategories` and no `setNotificationCategories` call happens,
and the notification request is submitted with the empty (`None`) category
identifier: the whole OS trace of `_send` is the settings query followed by
the single `addNotificationRequest`. -/
theorem C10_no_buttons_no_reply_no_category
    (pr : Char → Bool) (uuids : Nat → String) (status : Nat) (osErr : String)
    (cats : List UNCategory) (count : Nat) (n : Notification)
    (replace : Option Notification)
    (hb : n.buttons = []) (hrf : n.reply_field = false)
    (h : has_authorisation status = true) :
    _create_category_for_notification pr cats n = ⟨none, cats, []⟩ ∧
    (contentFor n none).categoryIdentifier = none ∧
    (_send pr uuids status osErr cats count n replace).1.calls
      = [OSCall.getSettings,
          OSCall.addRequest (platform_nid_used uuids count replace)
            (contentFor n none)] := by
  have hcreate : _create_category_for_notification pr cats n = ⟨none, cats, []⟩ := by
    unfold _create_category_for_notification resolveCategoryKey
    rw [hb, hrf]
    simp
  refine ⟨hcreate, rfl, ?_⟩
  rw [_send_authorized_eq pr uuids status osErr cats count n replace h, hcreate]
  rfl

/-- A notification with neither buttons nor a reply field. -/
def bareNotification : Notification :=
  { identifier := "nid-4", title := "t", message := "m", thread := "",
    sound := false, attachment := none, buttons := [], reply_field := false,
    on_replied := none, on_clicked := none, on_dismissed := none }

theorem C10_witness :
    _create_category_for_notification (fun _ => true) [] bareNotification
        = ⟨none, [], []⟩ ∧
    (contentFor bareNotification none).categoryIdentifier = none ∧
    (_send (fun _ => true) uuidSupply 2 "" [] 1 bareNotification none).1.calls
      = [OSCall.getSettings,
          OSCall.addRequest (platform_nid_used uuidSupply 1 none)
            (contentFor bareNotification none)] :=
  C10_no_buttons_no_reply_no_category (fun _ => true) uuidSupply 2 "" [] 1
    bareNotification none rfl rfl rfl

/-! ### Claim C3 -/

/-- A category registered with the OS by some other process. -/
def foreignCategory : UNCategory := ⟨"other-process-category", []⟩

/-- C3 counterexample: constructing a `CocoaNotificationCenter` while a
category registered by another process exists issues
`setNotificationCategories` with the empty set (lines 139-140 call
`_clear_notification_categories`, lines 339-342) — and the empty set is not
a superset of the currently registered categories.  So the backend is not
additive-only over its lifetime including construction. -/
theorem C3_counterexample :
    OSCall.setCategories [] ∈ (cocoaInit [foreignCategory]).2 ∧
    ¬ (∀ c ∈ [foreignCategory], c ∈ ([] : List UNCategory)) := by
  constructor
  · simp [cocoaInit, _clear_notification_categories]
  · intro hall
    exact absurd (hall foreignCategory (by simp)) (by simp)

/-- C3 (amended): every category update issued by
`_create_category_for_notification` — and hence by `_send` — registers a
superset of the categories currently registered with the OS (the old set
plus the new category, line 310); construction, however, is not additive:
`__init__` clears the registered categories to the empty set. -/
theorem C3_category_updates_additive_except_construction
    (pr : Char → Bool) (uuids : Nat → String) (status : Nat) (osErr : String)
    (cats : List UNCategory) (count : Nat) (n : Notification)
    (replace : Option Notification) :
    (∀ l, OSCall.setCategories l ∈ (_create_category_for_notification pr cats n).calls →
        ∀ c ∈ cats, c ∈ l) ∧
    (∀ l, OSCall.setCategories l
        ∈ (_send pr uuids status osErr cats count n replace).1.calls →
        ∀ c ∈ cats, c ∈ l) ∧
    (cocoaInit cats).2 = [OSCall.setCategories []] := by
  have hcreate : ∀ l,
      OSCall.setCategories l ∈ (_create_category_for_notification pr cats n).calls →
      ∀ c ∈ cats, c ∈ l := by
    intro l hmem c hc
    unfold _create_category_for_notification at hmem
    split at hmem
    · simp at hmem
    · split at hmem
      · simp at hmem
      · simp only [List.mem_cons, List.mem_singleton] at hmem
        rcases hmem with hmem | hmem | hmem
        · exact absurd hmem (by simp)
        · injection hmem with hl
          rw [hl]
          exact List.mem_append_left _ hc
        · simp at hmem
  refine ⟨hcreate, ?_, rfl⟩
  intro l hmem c hc
  by_cases hauth : has_authorisation status = true
  · rw [_send_authorized_eq pr uuids status osErr cats count n replace hauth] at hmem
    rcases List.mem_cons.mp hmem with hm | hm
    · exact absurd hm (by simp)
    · rcases List.mem_append.mp hm with hm | hm
      · exact hcreate l hm c hc
      · simp at hm
  · have hfalse : has_authorisation status = false := by
      cases hb2 : has_authorisation status
      · rfl
      · exact absurd hb2 hauth
    unfold _send at hmem
    rw [if_pos hfalse] at hmem
    simp at hmem
  
theorem C3_witness :
    (cocoaInit [foreignCategory]).2 = [OSCall.setCategories []] ∧
    (∀ l, OSCall.setCategories l
        ∈ (_create_category_for_notification (fun _ => true) [foreignCategory]
            plainNotification).calls →
        ∀ c ∈ [foreignCategory], c ∈ l) :=
  ⟨(C3_category_updates_additive_except_construction (fun _ => true) uuidSupply 2 ""
      [foreignCategory] 0 plainNotification none).2.2,
    (C3_category_updates_additive_except_construction (fun _ => true) uuidSupply 2 ""
      [foreignCategory] 0 plainNotification none).1⟩

theorem C7_witness :
    (resolveCategoryKey (fun _ => true) ["OK"] false
        = resolveCategoryKey (fun _ => true) ["Cancel"] false)
      ↔ ((["OK"] : List String) = ["Cancel"] ∧ false = false) :=
  C7_category_key_deterministic_and_injective (fun _ => true) ["OK"] ["Cancel"]
    false false

theorem C2_witness :
    (didReceiveNotificationResponse [("nid-1", raisingNotification)]
        clickResponse).1.count Ev.completion
      = if (didReceiveNotificationResponse [("nid-1", raisingNotification)]
            clickResponse).2 = none then 1 else 0 :=
  C2_completion_exactly_once_unless_exception [("nid-1", raisingNotification)]
    clickResponse
